import Mathlib

/-
Shallow embedding of gen_redirects.py, a script that walks a built blog
output directory (the blog root) and, for every page directory in it,
writes a redirect stub index.html at the matching relative path inside a
site repository (the site root).  The embedding models the os.walk output
as a list of visited directories, the destination tree as the association
list of the index.html files it holds, and the main loop (lines 74-123 of
the script) as a fold over the visited directories.
-/

namespace GenRedirects

/-- A directory visited by os.walk under the blog root: its path relative
to the blog root, as a list of path components, empty for the blog root
itself, together with the names of the files directly inside it. -/
structure SrcDir where
  comps : List String
  files : List String
deriving DecidableEq

/-- The destination site tree, modelled as the association list of the
index.html files it holds: each entry maps the normalized relative path of
a directory to the content of the index.html file in that directory.
Files that are not named index.html are never read or written by the
script, so they are not part of the model. -/
abbrev Dest := List (String × String)

/-- The command line configuration of a run: the raw value of the base
argument, the overwrite flag, the dry-run flag, and the exclude set
(already normalized, as main builds exclude_set at line 61). -/
structure Config where
  base : String
  overwrite : Bool
  dryRun : Bool
  exclude : List String
deriving DecidableEq

/-- Python str.startswith on whole strings: the candidate prefix is an
initial segment of the character sequence. -/
def pyStartswith (s p : String) : Bool := p.data.isPrefixOf s.data

/-- Python str.endswith on whole strings: the candidate suffix is a final
segment of the character sequence. -/
def pyEndswith (s p : String) : Bool := p.data.isSuffixOf s.data

/-- Lines 55-59 of main: force the base prefix to start and end with a
slash. -/
def normalizeBase (b : String) : String :=
  let b1 := if pyStartswith b "/" then b else "/" ++ b
  if pyEndswith b1 "/" then b1 else b1 ++ "/"

/-- normalize_rel (lines 38-41) applied to a walk-relative path: relpath
"." (the blog root, empty component list) becomes "", any other path is
its components joined with "/".  On a POSIX system os.sep is already "/",
so the replace in the source is the identity on the join. -/
def normalize_rel (comps : List String) : String :=
  String.intercalate "/" comps

/-- is_index_at_root (lines 31-36): under os.walk the absolute-path
comparison with the blog root holds exactly for the walk entry whose
relative component list is empty. -/
def is_index_at_root (comps : List String) : Bool := comps.isEmpty

/-- The fixed redirect page template (lines 17-29), split at the four
occurrences of the format placeholder. -/
def tplA : String := "<!DOCTYPE html>\n<html lang=\"en\">\n<head>\n  <meta charset=\"UTF-8\">\n  <meta http-equiv=\"refresh\" content=\"0; url="

/-- Template text between the meta refresh target and the canonical href
target. -/
def tplB : String := "\">\n  <link rel=\"canonical\" href=\""

/-- Template text between the canonical href target and the anchor href
target. -/
def tplC : String := "\">\n  <title>Redirecting...</title>\n</head>\n<body>\n  <p>Redirecting to <a href=\""

/-- Template text between the anchor href target and the visible anchor
text target. -/
def tplD : String := "\">"

/-- Template text after the visible anchor text target. -/
def tplE : String := "</a></p>\n</body>\n</html>\n"

/-- REDIRECT_TEMPLATE.format on a target: the template with the target
substituted verbatim at its four placeholder occurrences. -/
def REDIRECT_TEMPLATE (target : String) : String :=
  tplA ++ target ++ tplB ++ target ++ tplC ++ target ++ tplD ++ target ++ tplE

/-- Look up the content of the index.html at a normalized relative path in
the destination tree. -/
def lookupDest : Dest → String → Option String
  | [], _ => none
  | p :: rest, k => if p.1 = k then some p.2 else lookupDest rest k

/-- os.path.exists on the redirect file for a normalized relative path. -/
def destExists (d : Dest) (k : String) : Bool := (lookupDest d k).isSome

/-- Writing the redirect file: replace the entry at the key if present,
append it otherwise (open with mode "w" truncates or creates). -/
def writeDest : Dest → String → String → Dest
  | [], k, v => [(k, v)]
  | p :: rest, k, v => if p.1 = k then (k, v) :: rest else p :: writeDest rest k v

/-- Per-directory classification printed by the loop body. -/
inductive Outcome where
  | noIndex
  | skipRoot
  | skipEmpty
  | skipExcluded
  | skipExists
  | created
  | overwritten
deriving DecidableEq

/-- Whether an outcome increments the skipped counter (the four skip
branches at lines 80-97 and 107-110 of the script). -/
def Outcome.isSkip : Outcome → Bool
  | Outcome.skipRoot => true
  | Outcome.skipEmpty => true
  | Outcome.skipExcluded => true
  | Outcome.skipExists => true
  | _ => false

/-- One iteration of the main loop (lines 74-123) on one walk entry:
returns the printed classification, the destination tree afterwards, and
the relative path of the file written, if one was written.  The branch at
line 118 re-checks os.path.exists after the write, so in a non-dry run it
always sees the file as present. -/
def step (cfg : Config) (dest : Dest) (dir : SrcDir) : Outcome × Dest × Option (List String) :=
  if "index.html" ∉ dir.files then
    ⟨Outcome.noIndex, dest, none⟩
  else if is_index_at_root dir.comps then
    ⟨Outcome.skipRoot, dest, none⟩
  else
    let rel := normalize_rel dir.comps
    if rel = "" then
      ⟨Outcome.skipEmpty, dest, none⟩
    else if rel ∈ cfg.exclude then
      ⟨Outcome.skipExcluded, dest, none⟩
    else
      let target := normalizeBase cfg.base ++ rel ++ "/"
      let existed := destExists dest rel
      if existed && !cfg.overwrite then
        ⟨Outcome.skipExists, dest, none⟩
      else
        let dest2 := if cfg.dryRun then dest else writeDest dest rel (REDIRECT_TEMPLATE target)
        let existsAfter := if cfg.dryRun then existed else true
        let wr : Option (List String) := if cfg.dryRun then none else some (dir.comps ++ [ "index.html" ])
        if cfg.overwrite && existsAfter then
          ⟨Outcome.overwritten, dest2, wr⟩
        else
          ⟨Outcome.created, dest2, wr⟩

/-- The summary state of a run: the three counters printed at lines
125-128, the destination tree after the run, the relative paths of the
files written, and the per-directory classifications in walk order. -/
structure RunResult where
  created : Nat
  overwritten : Nat
  skipped : Nat
  dest : Dest
  writes : List (List String)
  outcomes : List Outcome
deriving DecidableEq

/-- The main loop over the walk entries, threading the destination tree
and accumulating the counters. -/
def run (cfg : Config) : List SrcDir → Dest → RunResult
  | [], dest => ⟨0, 0, 0, dest, [], []⟩
  | dir :: rest, dest =>
    let s := step cfg dest dir
    let r := run cfg rest s.2.1
    ⟨(if s.1 = Outcome.created then 1 else 0) + r.created,
     (if s.1 = Outcome.overwritten then 1 else 0) + r.overwritten,
     (if s.1.isSkip then 1 else 0) + r.skipped,
     r.dest,
     (match s.2.2 with | none => r.writes | some p => p :: r.writes),
     s.1 :: r.outcomes⟩

/-- A full invocation of main: none when one of the root-directory
preconditions at lines 63-68 fails, in which case main returns before the
traversal and prints no summary. -/
def mainRun (blogIsDir siteIsDir : Bool) (cfg : Config) (dirs : List SrcDir) (dest : Dest) : Option RunResult :=
  if blogIsDir && siteIsDir then some (run cfg dirs dest) else none

/-- The destination tree after an invocation of main: unchanged when the
run aborts on a precondition. -/
def mainDest (blogIsDir siteIsDir : Bool) (cfg : Config) (dirs : List SrcDir) (dest : Dest) : Dest :=
  match mainRun blogIsDir siteIsDir cfg dirs dest with
  | none => dest
  | some r => r.dest

/-- The normalized relative path of a walk entry. -/
def relOf (dir : SrcDir) : String := normalize_rel dir.comps

/-- The normalized relative paths of a list of walk entries. -/
def relKeys (dirs : List SrcDir) : List String := dirs.map relOf

/-- A walk entry directly contains a file named exactly index.html. -/
def hasIndex (dir : SrcDir) : Bool := decide ("index.html" ∈ dir.files)

/-- A walk entry passes every filter of the loop: it directly contains
index.html, it is not the blog root, its normalized relative path is
non-empty and not excluded. -/
def qualB (cfg : Config) (dir : SrcDir) : Bool :=
  hasIndex dir && !(is_index_at_root dir.comps) && !(relOf dir == "") && !(decide (relOf dir ∈ cfg.exclude))

/-- Well-formedness of an os.walk output: every path component is an
actual directory name. -/
def walkWF (dirs : List SrcDir) : Prop :=
  ∀ dir ∈ dirs, ∀ c ∈ dir.comps, c ≠ "" ∧ c ≠ "." ∧ c ≠ ".."

/-- A walk entry with index.html that fails one of the root, empty-path or
exclusion filters, so that it is skipped before the existence check. -/
def nqSkipB (cfg : Config) (dir : SrcDir) : Bool :=
  hasIndex dir && (is_index_at_root dir.comps || (relOf dir == "") || decide (relOf dir ∈ cfg.exclude))

/-- The configuration with the dry-run flag replaced. -/
def withDry (cfg : Config) (b : Bool) : Config :=
  ⟨cfg.base, cfg.overwrite, b, cfg.exclude⟩

/-- The opening text of the meta refresh tag in the template. -/
def metaOpen : String := "<meta http-equiv=\"refresh\" content=\"0; url="

/-- The opening text of the canonical link tag in the template. -/
def canonOpen : String := "<link rel=\"canonical\" href=\""

/-- The opening text of the fallback anchor in the template. -/
def aOpen : String := "<a href=\""

/-- The closing quote-and-bracket shared by the three tags. -/
def closeTag : String := "\">"

/-- The closing anchor tag. -/
def aClose : String := "</a>"

/-- The template text before the meta refresh tag. -/
def tplA0 : String := "<!DOCTYPE html>\n<html lang=\"en\">\n<head>\n  <meta charset=\"UTF-8\">\n  "

/-- The template text between the meta refresh tag and the canonical
link tag. -/
def nlIndent : String := "\n  "

/-- The template text between the canonical link tag and the fallback
anchor. -/
def tplC0 : String := "\n  <title>Redirecting...</title>\n</head>\n<body>\n  <p>Redirecting to "

/-- The template text after the closing anchor tag. -/
def tplE0 : String := "</p>\n</body>\n</html>\n"

/-- The meta refresh tag the template carries for a target. -/
def metaTag (t : String) : String := metaOpen ++ t ++ closeTag

/-- The canonical link tag the template carries for a target. -/
def canonTag (t : String) : String := canonOpen ++ t ++ closeTag

/-- The visible fallback hyperlink the template carries for a target:
both its href and its anchor text are the target. -/
def anchorTag (t : String) : String := aOpen ++ t ++ closeTag ++ t ++ aClose

theorem lookupDest_writeDest (d : Dest) (k v k' : String) :
    lookupDest (writeDest d k v) k' = if k' = k then some v else lookupDest d k' := by
  induction d with
  | nil =>
    simp only [writeDest, lookupDest]
    rcases eq_or_ne k' k with h | h
    · simp [h]
    · simp [h, Ne.symm h]
  | cons p rest ih =>
    simp only [writeDest]
    rcases eq_or_ne p.1 k with hp | hp
    · simp only [if_pos hp, lookupDest]
      rcases eq_or_ne k' k with h | h
      · simp [h]
      · simp [h, Ne.symm h, hp ▸ (Ne.symm h)]
    · simp only [if_neg hp, lookupDest, ih]
      rcases eq_or_ne p.1 k' with hq | hq
      · rcases eq_or_ne k' k with h | h
        · exact absurd (hq.trans h) hp
        · simp [hq, h]
      · simp [hq]

theorem destExists_writeDest (d : Dest) (k v k' : String) :
    destExists (writeDest d k v) k' = (decide (k' = k) || destExists d k') := by
  simp only [destExists, lookupDest_writeDest]
  rcases eq_or_ne k' k with h | h
  · simp [h]
  · simp [h]

theorem step_dry (cfg : Config) (dest : Dest) (dir : SrcDir) (h : cfg.dryRun = true) :
    (step cfg dest dir).2.1 = dest ∧ (step cfg dest dir).2.2 = none := by
  simp only [step, h]
  split_ifs <;> simp

theorem run_dry (cfg : Config) (dirs : List SrcDir) (dest : Dest) (h : cfg.dryRun = true) :
    (run cfg dirs dest).dest = dest ∧ (run cfg dirs dest).writes = [] := by
  induction dirs generalizing dest with
  | nil => simp [run]
  | cons dir rest ih =>
    have hs := step_dry cfg dest dir h
    simp only [run, hs.1, hs.2]
    exact ih dest

theorem step_dest_other (cfg : Config) (dest : Dest) (dir : SrcDir) (k : String)
    (hk : k ≠ relOf dir) : destExists (step cfg dest dir).2.1 k = destExists dest k := by
  simp only [step]
  split_ifs <;> simp [destExists_writeDest, relOf] at hk ⊢ <;> simp [hk]

set_option maxHeartbeats 1000000 in
theorem step_agree (cfg : Config) (d1 d2 : Dest) (dir : SrcDir)
    (h : destExists d1 (relOf dir) = destExists d2 (relOf dir)) :
    (step cfg d1 dir).1 = (step cfg d2 dir).1 ∧
    (step cfg d1 dir).2.2 = (step cfg d2 dir).2.2 ∧
    ∀ k, destExists d1 k = destExists d2 k →
      destExists (step cfg d1 dir).2.1 k = destExists (step cfg d2 dir).2.1 k := by
  have h' : destExists d1 (normalize_rel dir.comps) = destExists d2 (normalize_rel dir.comps) := h
  simp only [step, h']
  split_ifs <;>
    refine ⟨rfl, rfl, fun k hk => ?_⟩ <;>
    simp [destExists_writeDest, hk]

theorem run_agree (cfg : Config) (dirs : List SrcDir) (d1 d2 : Dest)
    (h : ∀ dir ∈ dirs, destExists d1 (relOf dir) = destExists d2 (relOf dir)) :
    (run cfg dirs d1).created = (run cfg dirs d2).created ∧
    (run cfg dirs d1).overwritten = (run cfg dirs d2).overwritten ∧
    (run cfg dirs d1).skipped = (run cfg dirs d2).skipped ∧
    (run cfg dirs d1).outcomes = (run cfg dirs d2).outcomes ∧
    (run cfg dirs d1).writes = (run cfg dirs d2).writes := by
  induction dirs generalizing d1 d2 with
  | nil => simp [run]
  | cons dir rest ih =>
    have hd := step_agree cfg d1 d2 dir (h dir (by simp))
    have hrest : ∀ d ∈ rest,
        destExists (step cfg d1 dir).2.1 (relOf d) = destExists (step cfg d2 dir).2.1 (relOf d) :=
      fun d hd' => hd.2.2 _ (h d (by simp [hd']))
    have ht := ih _ _ hrest
    simp only [run]
    refine ⟨?_, ?_, ?_, ?_, ?_⟩
    · rw [hd.1, ht.1]
    · rw [hd.1, ht.2.1]
    · rw [hd.1, ht.2.2.1]
    · rw [hd.1, ht.2.2.2.1]
    · rw [hd.2.1, ht.2.2.2.2]

theorem step_noIndex_iff (cfg : Config) (dest : Dest) (dir : SrcDir) :
    (step cfg dest dir).1 = Outcome.noIndex ↔ hasIndex dir = false := by
  simp only [step]
  split_ifs with h1 <;> simp [hasIndex, h1]

theorem run_counter_sum (cfg : Config) (dirs : List SrcDir) (dest : Dest) :
    (run cfg dirs dest).created + (run cfg dirs dest).overwritten + (run cfg dirs dest).skipped
      = (dirs.filter (fun d => hasIndex d)).length := by
  induction dirs generalizing dest with
  | nil => simp [run]
  | cons dir rest ih =>
    have hsum := ih (step cfg dest dir).2.1
    have hone : (if (step cfg dest dir).1 = Outcome.created then 1 else 0)
        + (if (step cfg dest dir).1 = Outcome.overwritten then 1 else 0)
        + (if ((step cfg dest dir).1).isSkip then 1 else 0)
        = if (step cfg dest dir).1 = Outcome.noIndex then 0 else 1 := by
      cases (step cfg dest dir).1 <;> simp [Outcome.isSkip]
    simp only [run]
    by_cases hidx : hasIndex dir = true
    · have hno : ¬ ((step cfg dest dir).1 = Outcome.noIndex) := by
        rw [step_noIndex_iff]
        simp [hidx]
      have hone1 : (if (step cfg dest dir).1 = Outcome.created then 1 else 0)
          + (if (step cfg dest dir).1 = Outcome.overwritten then 1 else 0)
          + (if ((step cfg dest dir).1).isSkip then 1 else 0) = 1 := by
        rw [hone, if_neg hno]
      have hfil : (List.filter (fun d => hasIndex d) (dir :: rest)).length
          = (List.filter (fun d => hasIndex d) rest).length + 1 := by
        simp [List.filter_cons, hidx]
      rw [hfil]
      omega
    · have hno : (step cfg dest dir).1 = Outcome.noIndex := by
        rw [step_noIndex_iff]
        simpa using hidx
      have hone0 : (if (step cfg dest dir).1 = Outcome.created then 1 else 0)
          + (if (step cfg dest dir).1 = Outcome.overwritten then 1 else 0)
          + (if ((step cfg dest dir).1).isSkip then 1 else 0) = 0 := by
        rw [hone, if_pos hno]
      have hfil : (List.filter (fun d => hasIndex d) (dir :: rest)).length
          = (List.filter (fun d => hasIndex d) rest).length := by
        simp [List.filter_cons, hidx]
      rw [hfil]
      omega

/-- Claim C7: if the blog root or the site root is not an existing
directory, main aborts before the traversal: it produces no summary and
the destination tree is unchanged. -/
theorem C7_precondition_abort (b s : Bool) (cfg : Config) (dirs : List SrcDir) (dest : Dest)
    (h : b = false ∨ s = false) :
    mainRun b s cfg dirs dest = none ∧ mainDest b s cfg dirs dest = dest := by
  rcases h with h | h <;> simp [mainRun, mainDest, h]

/-- Witness for C7 at a concrete input: missing blog root, empty walk. -/
theorem C7_precondition_abort_witness :
    ((false : Bool) = false ∨ (true : Bool) = false) ∧
    (mainRun false true ⟨ "/blog/", false, false, []⟩ [] [] = none ∧
      mainDest false true ⟨ "/blog/", false, false, []⟩ [] [] = []) :=
  ⟨Or.inl rfl, C7_precondition_abort false true ⟨ "/blog/", false, false, []⟩ [] [] (Or.inl rfl)⟩

theorem step_qual (cfg : Config) (dest : Dest) (dir : SrcDir)
    (hidx : "index.html" ∈ dir.files) (hrel : relOf dir ≠ "")
    (hexc : relOf dir ∉ cfg.exclude) :
    step cfg dest dir =
      (if destExists dest (relOf dir) && !cfg.overwrite then
        ⟨Outcome.skipExists, dest, none⟩
      else if cfg.overwrite && (if cfg.dryRun then destExists dest (relOf dir) else true) then
        ⟨Outcome.overwritten,
         (if cfg.dryRun then dest
          else writeDest dest (relOf dir) (REDIRECT_TEMPLATE (normalizeBase cfg.base ++ relOf dir ++ "/"))),
         (if cfg.dryRun then none else some (dir.comps ++ [ "index.html" ]))⟩
      else
        ⟨Outcome.created,
         (if cfg.dryRun then dest
          else writeDest dest (relOf dir) (REDIRECT_TEMPLATE (normalizeBase cfg.base ++ relOf dir ++ "/"))),
         (if cfg.dryRun then none else some (dir.comps ++ [ "index.html" ]))⟩) := by
  have hroot : is_index_at_root dir.comps = false := by
    cases hc : dir.comps with
    | nil =>
      refine absurd ?_ hrel
      simp only [relOf, normalize_rel, hc]
      rfl
    | cons a l => simp [is_index_at_root, hc]
  have hrel' : normalize_rel dir.comps ≠ "" := hrel
  have hexc' : normalize_rel dir.comps ∉ cfg.exclude := hexc
  simp only [step]
  rw [if_neg (by simp [hidx]), if_neg (by simp [hroot]), if_neg hrel', if_neg hexc']
  rfl

theorem step_nonqual (cfg : Config) (dest : Dest) (dir : SrcDir)
    (hq : qualB cfg dir = false) :
    (step cfg dest dir).2.1 = dest ∧ (step cfg dest dir).2.2 = none := by
  simp only [step]
  split_ifs with h1 h2 h3 h4 h5 h6 <;>
    first
      | exact ⟨rfl, rfl⟩
      | simp_all [qualB, hasIndex, relOf]

theorem step_ow_outcome (cfg : Config) (dest : Dest) (dir : SrcDir)
    (how : cfg.overwrite = true) (hdry : cfg.dryRun = false) :
    ((step cfg dest dir).1 ≠ Outcome.created) ∧
    ((step cfg dest dir).1 = Outcome.overwritten ↔ qualB cfg dir = true) := by
  simp only [step, hdry, how]
  split_ifs with h1 h2 h3 h4 h5 <;>
    simp_all [qualB, hasIndex, relOf]

theorem qualB_iff (cfg : Config) (dir : SrcDir) :
    qualB cfg dir = true ↔
      ("index.html" ∈ dir.files ∧ is_index_at_root dir.comps = false ∧
        relOf dir ≠ "" ∧ relOf dir ∉ cfg.exclude) := by
  simp only [qualB, hasIndex, Bool.and_eq_true, decide_eq_true_eq, Bool.not_eq_true',
    beq_eq_false_iff_ne, ne_eq, decide_eq_false_iff_not]
  constructor
  · rintro ⟨⟨⟨h1, h2⟩, h3⟩, h4⟩
    exact ⟨h1, h2, h3, h4⟩
  · rintro ⟨h1, h2, h3, h4⟩
    exact ⟨⟨⟨h1, h2⟩, h3⟩, h4⟩

theorem step_ow_dest (cfg : Config) (dest : Dest) (dir : SrcDir)
    (how : cfg.overwrite = true) (hdry : cfg.dryRun = false) (hq : qualB cfg dir = true) :
    (step cfg dest dir).2.1
      = writeDest dest (relOf dir) (REDIRECT_TEMPLATE (normalizeBase cfg.base ++ relOf dir ++ "/")) := by
  obtain ⟨hidx, hroot, hrel, hexc⟩ := (qualB_iff cfg dir).mp hq
  rw [step_qual cfg dest dir hidx hrel hexc]
  simp [how, hdry]

theorem run_ow (cfg : Config) (dirs : List SrcDir) (dest : Dest)
    (how : cfg.overwrite = true) (hdry : cfg.dryRun = false) :
    (run cfg dirs dest).created = 0 ∧
    (run cfg dirs dest).overwritten = (dirs.filter (fun d => qualB cfg d)).length := by
  induction dirs generalizing dest with
  | nil => simp [run]
  | cons dir rest ih =>
    have ho := step_ow_outcome cfg dest dir how hdry
    have iht := ih (step cfg dest dir).2.1
    simp only [run]
    constructor
    · simp [ho.1, iht.1]
    · by_cases hq : qualB cfg dir = true
      · have h1 : (if (step cfg dest dir).1 = Outcome.overwritten then 1 else 0) = 1 :=
          if_pos (ho.2.mpr hq)
        rw [h1, iht.2, List.filter_cons, if_pos hq, List.length_cons]
        omega
      · have h1 : (if (step cfg dest dir).1 = Outcome.overwritten then 1 else 0) = 0 :=
          if_neg (fun hc => hq (ho.2.mp hc))
        rw [h1, iht.2, List.filter_cons, if_neg hq]
        omega

theorem lookupDest_run_ow (cfg : Config) (dirs : List SrcDir) (dest : Dest) (k : String)
    (how : cfg.overwrite = true) (hdry : cfg.dryRun = false) :
    lookupDest (run cfg dirs dest).dest k =
      (if dirs.any (fun d => qualB cfg d && (relOf d == k)) then
        some (REDIRECT_TEMPLATE (normalizeBase cfg.base ++ k ++ "/"))
      else lookupDest dest k) := by
  induction dirs generalizing dest with
  | nil => simp [run]
  | cons dir rest ih =>
    have hw : (run cfg (dir :: rest) dest).dest = (run cfg rest (step cfg dest dir).2.1).dest := by
      simp [run]
    rw [hw, ih (step cfg dest dir).2.1, List.any_cons]
    by_cases hq : qualB cfg dir = true
    · rw [step_ow_dest cfg dest dir how hdry hq]
      by_cases hk : relOf dir = k
      · have hcond : (qualB cfg dir && (relOf dir == k)) = true := by simp [hq, hk]
        rw [hcond]
        by_cases hrest : rest.any (fun d => qualB cfg d && (relOf d == k)) = true
        · rw [if_pos hrest]
          simp
        · rw [if_neg hrest, lookupDest_writeDest, if_pos (Eq.symm hk), hk]
          simp
      · have hcond : (qualB cfg dir && (relOf dir == k)) = false := by simp [hk]
        rw [hcond]
        simp only [Bool.false_or]
        by_cases hrest : rest.any (fun d => qualB cfg d && (relOf d == k)) = true
        · rw [if_pos hrest, if_pos hrest]
        · rw [if_neg hrest, if_neg hrest, lookupDest_writeDest,
            if_neg (fun hc => hk (Eq.symm hc))]
    · have hq' : qualB cfg dir = false := by simpa using hq
      rw [(step_nonqual cfg dest dir hq').1]
      have hcond : (qualB cfg dir && (relOf dir == k)) = false := by simp [hq']
      rw [hcond]
      simp only [Bool.false_or]

/-- Counterexample to claim C1 as stated: with overwrite set, in a real
run, a qualifying directory whose output file does not exist is written
but counted overwritten, not created, because the existence check at
classification time happens after the write. -/
theorem C1_counterexample :
    destExists [] (relOf ⟨["a"], ["index.html"]⟩) = false ∧
    (run ⟨ "/blog/", true, false, []⟩ [⟨["a"], ["index.html"]⟩] []).created = 0 ∧
    (run ⟨ "/blog/", true, false, []⟩ [⟨["a"], ["index.html"]⟩] []).overwritten = 1 := by
  decide

/-- Claim C1 (amended): for a qualifying, non-excluded directory whose
output file does not exist, the run writes the file; the created counter
is incremented when overwrite is unset or the run is dry, but when
overwrite is set in a real run the newly written file increments the
overwritten counter instead, so overwritten is incremented exactly when
overwrite is set and the run is not a dry run. -/
theorem C1_amended (cfg : Config) (dest : Dest) (dir : SrcDir)
    (hidx : "index.html" ∈ dir.files) (hrel : relOf dir ≠ "")
    (hexc : relOf dir ∉ cfg.exclude)
    (hnew : destExists dest (relOf dir) = false) :
    ((step cfg dest dir).1
        = (if cfg.overwrite && !cfg.dryRun then Outcome.overwritten else Outcome.created)) ∧
    (cfg.dryRun = false → (step cfg dest dir).2.2 = some (dir.comps ++ [ "index.html" ])) ∧
    ((step cfg dest dir).1 = Outcome.overwritten ↔ (cfg.overwrite = true ∧ cfg.dryRun = false)) := by
  rw [step_qual cfg dest dir hidx hrel hexc, hnew]
  cases hdr : cfg.dryRun <;> cases hov : cfg.overwrite <;> simp

/-- Witness for C1 (amended) at a concrete input. -/
theorem C1_amended_witness :
    ("index.html" ∈ (⟨["a"], ["index.html"]⟩ : SrcDir).files ∧
      relOf ⟨["a"], ["index.html"]⟩ ≠ "" ∧
      relOf ⟨["a"], ["index.html"]⟩ ∉ (⟨ "/blog/", false, false, []⟩ : Config).exclude ∧
      destExists [] (relOf ⟨["a"], ["index.html"]⟩) = false) ∧
    (((step ⟨ "/blog/", false, false, []⟩ [] ⟨["a"], ["index.html"]⟩).1
        = (if (⟨ "/blog/", false, false, []⟩ : Config).overwrite
              && !(⟨ "/blog/", false, false, []⟩ : Config).dryRun
            then Outcome.overwritten else Outcome.created)) ∧
      ((⟨ "/blog/", false, false, []⟩ : Config).dryRun = false →
        (step ⟨ "/blog/", false, false, []⟩ [] ⟨["a"], ["index.html"]⟩).2.2
          = some ((⟨["a"], ["index.html"]⟩ : SrcDir).comps ++ [ "index.html" ])) ∧
      ((step ⟨ "/blog/", false, false, []⟩ [] ⟨["a"], ["index.html"]⟩).1 = Outcome.overwritten ↔
        ((⟨ "/blog/", false, false, []⟩ : Config).overwrite = true ∧
          (⟨ "/blog/", false, false, []⟩ : Config).dryRun = false))) :=
  ⟨⟨by decide, by decide, by decide, by decide⟩,
    C1_amended ⟨ "/blog/", false, false, []⟩ [] ⟨["a"], ["index.html"]⟩
      (by decide) (by decide) (by decide) (by decide)⟩

/-- Counterexample to claim C3 as stated: with overwrite set, running the
tool twice on a fresh destination gives a second overwritten count of 1,
while the first run's created count is 0 (the claim demands they be
equal through "second overwritten equals first created"). -/
theorem C3_counterexample :
    (run ⟨ "/blog/", true, false, []⟩ [⟨["a"], ["index.html"]⟩] []).created = 0 ∧
    (run ⟨ "/blog/", true, false, []⟩ [⟨["a"], ["index.html"]⟩]
        (run ⟨ "/blog/", true, false, []⟩ [⟨["a"], ["index.html"]⟩] []).dest).overwritten = 1 := by
  decide

/-- Claim C3 (amended): with overwrite set, in real runs, every processed
qualifying directory is counted overwritten and the created counter stays
0 (existence is re-checked after the write), so running twice leaves
identical file contents, both runs report created 0, and the second run's
overwritten count equals the first run's overwritten count. -/
theorem C3_amended (cfg : Config) (dirs : List SrcDir) (dest : Dest)
    (how : cfg.overwrite = true) (hdry : cfg.dryRun = false) :
    (run cfg dirs dest).created = 0 ∧
    (run cfg dirs (run cfg dirs dest).dest).created = 0 ∧
    (run cfg dirs (run cfg dirs dest).dest).overwritten = (run cfg dirs dest).overwritten ∧
    ∀ k, lookupDest (run cfg dirs (run cfg dirs dest).dest).dest k
        = lookupDest (run cfg dirs dest).dest k := by
  refine ⟨(run_ow cfg dirs dest how hdry).1, (run_ow cfg dirs _ how hdry).1, ?_, ?_⟩
  · rw [(run_ow cfg dirs _ how hdry).2, (run_ow cfg dirs dest how hdry).2]
  · intro k
    rw [lookupDest_run_ow cfg dirs ((run cfg dirs dest).dest) k how hdry]
    by_cases h : dirs.any (fun d => qualB cfg d && (relOf d == k)) = true
    · rw [if_pos h, lookupDest_run_ow cfg dirs dest k how hdry, if_pos h]
    · rw [if_neg h]

/-- Witness for C3 (amended) at a concrete input. -/
theorem C3_amended_witness :
    ((⟨ "/blog/", true, false, []⟩ : Config).overwrite = true ∧
      (⟨ "/blog/", true, false, []⟩ : Config).dryRun = false) ∧
    ((run ⟨ "/blog/", true, false, []⟩ [⟨["b"], ["index.html"]⟩] []).created = 0 ∧
      (run ⟨ "/blog/", true, false, []⟩ [⟨["b"], ["index.html"]⟩]
        (run ⟨ "/blog/", true, false, []⟩ [⟨["b"], ["index.html"]⟩] []).dest).created = 0 ∧
      (run ⟨ "/blog/", true, false, []⟩ [⟨["b"], ["index.html"]⟩]
          (run ⟨ "/blog/", true, false, []⟩ [⟨["b"], ["index.html"]⟩] []).dest).overwritten
        = (run ⟨ "/blog/", true, false, []⟩ [⟨["b"], ["index.html"]⟩] []).overwritten ∧
      ∀ k, lookupDest (run ⟨ "/blog/", true, false, []⟩ [⟨["b"], ["index.html"]⟩]
            (run ⟨ "/blog/", true, false, []⟩ [⟨["b"], ["index.html"]⟩] []).dest).dest k
          = lookupDest (run ⟨ "/blog/", true, false, []⟩ [⟨["b"], ["index.html"]⟩] []).dest k) :=
  ⟨⟨rfl, rfl⟩, C3_amended ⟨ "/blog/", true, false, []⟩ [⟨["b"], ["index.html"]⟩] [] rfl rfl⟩

theorem step_nonqual_outcome (cfg : Config) (dest : Dest) (dir : SrcDir)
    (hq : qualB cfg dir = false) :
    ((step cfg dest dir).1).isSkip = hasIndex dir ∧
    (step cfg dest dir).1 ≠ Outcome.created ∧
    (step cfg dest dir).1 ≠ Outcome.overwritten := by
  simp only [step]
  split_ifs with h1 h2 h3 h4 h5 h6 <;> simp_all [qualB, hasIndex, relOf, Outcome.isSkip]

theorem step_frozen (cfg : Config) (dest : Dest) (dir : SrcDir)
    (how : cfg.overwrite = false)
    (hex : qualB cfg dir = true → destExists dest (relOf dir) = true) :
    ((step cfg dest dir).1).isSkip = hasIndex dir ∧
    (step cfg dest dir).1 ≠ Outcome.created ∧
    (step cfg dest dir).1 ≠ Outcome.overwritten ∧
    (step cfg dest dir).2.1 = dest ∧ (step cfg dest dir).2.2 = none := by
  by_cases hq : qualB cfg dir = true
  · obtain ⟨hidx, hroot, hrel, hexc⟩ := (qualB_iff cfg dir).mp hq
    rw [step_qual cfg dest dir hidx hrel hexc, hex hq, how]
    simp [hasIndex, hidx, Outcome.isSkip]
  · have hq' : qualB cfg dir = false := by simpa using hq
    have h5 := step_nonqual cfg dest dir hq'
    have h6 := step_nonqual_outcome cfg dest dir hq'
    exact ⟨h6.1, h6.2.1, h6.2.2, h5.1, h5.2⟩

theorem run_frozen (cfg : Config) (dirs : List SrcDir) (how : cfg.overwrite = false) :
    ∀ dest : Dest, (∀ dir ∈ dirs, qualB cfg dir = true → destExists dest (relOf dir) = true) →
      (run cfg dirs dest).created = 0 ∧ (run cfg dirs dest).overwritten = 0 ∧
      (run cfg dirs dest).dest = dest ∧ (run cfg dirs dest).writes = [] ∧
      (run cfg dirs dest).skipped = (dirs.filter (fun d => hasIndex d)).length := by
  induction dirs with
  | nil =>
    intro dest _
    simp [run]
  | cons dir rest ih =>
    intro dest hall
    have hf := step_frozen cfg dest dir how (hall dir (by simp))
    have iht := ih dest (fun d hd hq => hall d (by simp [hd]) hq)
    simp only [run, hf.2.2.2.1, hf.2.2.2.2]
    refine ⟨?_, ?_, iht.2.2.1, iht.2.2.2.1, ?_⟩
    · rw [if_neg hf.2.1, iht.1]
    · rw [if_neg hf.2.2.1, iht.2.1]
    · rw [hf.1, iht.2.2.2.2, List.filter_cons]
      by_cases hidx : hasIndex dir = true
      · rw [if_pos hidx, hidx]
        simp [Nat.add_comm]
      · rw [if_neg hidx]
        have : hasIndex dir = false := by simpa using hidx
        rw [this]
        simp

theorem step_exists_mono (cfg : Config) (dest : Dest) (dir : SrcDir) (k : String)
    (h : destExists dest k = true) : destExists (step cfg dest dir).2.1 k = true := by
  simp only [step]
  split_ifs <;> simp [destExists_writeDest, h]

theorem run_exists_mono (cfg : Config) (dirs : List SrcDir) :
    ∀ (dest : Dest) (k : String), destExists dest k = true →
      destExists (run cfg dirs dest).dest k = true := by
  induction dirs with
  | nil =>
    intro dest k h
    simpa [run] using h
  | cons dir rest ih =>
    intro dest k h
    have hdd : (run cfg (dir :: rest) dest).dest = (run cfg rest (step cfg dest dir).2.1).dest := by
      simp [run]
    rw [hdd]
    exact ih _ k (step_exists_mono cfg dest dir k h)

theorem step_qual_exists (cfg : Config) (dest : Dest) (dir : SrcDir)
    (hq : qualB cfg dir = true) (hdry : cfg.dryRun = false) :
    destExists (step cfg dest dir).2.1 (relOf dir) = true := by
  obtain ⟨hidx, hroot, hrel, hexc⟩ := (qualB_iff cfg dir).mp hq
  rw [step_qual cfg dest dir hidx hrel hexc]
  by_cases hex : destExists dest (relOf dir) = true
  · split_ifs <;> simp [destExists_writeDest, hdry, hex]
  · have hex' : destExists dest (relOf dir) = false := by simpa using hex
    rw [hex']
    simp only [hdry]
    split_ifs <;> simp_all [destExists_writeDest]

theorem run_qual_exists (cfg : Config) (dirs : List SrcDir) (hdry : cfg.dryRun = false) :
    ∀ dest : Dest, ∀ dir ∈ dirs, qualB cfg dir = true →
      destExists (run cfg dirs dest).dest (relOf dir) = true := by
  induction dirs with
  | nil =>
    intro dest dir h
    simp at h
  | cons d rest ih =>
    intro dest dir hmem hq
    have hdd : (run cfg (d :: rest) dest).dest = (run cfg rest (step cfg dest d).2.1).dest := by
      simp [run]
    rw [hdd]
    rcases List.mem_cons.mp hmem with he | hm
    · subst he
      exact run_exists_mono cfg rest _ _ (step_qual_exists cfg dest dir hq hdry)
    · exact ih _ dir hm hq

/-- Counterexample to claim C4 as stated: without overwrite, walking a
blog whose root also contains index.html gives a second-run skipped count
of 2 (root skip plus the exists skip), while the first run's created plus
overwritten counts are 1. -/
theorem C4_counterexample :
    (run ⟨ "/blog/", false, false, []⟩ [⟨[], ["index.html"]⟩, ⟨["a"], ["index.html"]⟩]
        (run ⟨ "/blog/", false, false, []⟩ [⟨[], ["index.html"]⟩, ⟨["a"], ["index.html"]⟩] []).dest).skipped
      = 2 ∧
    (run ⟨ "/blog/", false, false, []⟩ [⟨[], ["index.html"]⟩, ⟨["a"], ["index.html"]⟩] []).created
      + (run ⟨ "/blog/", false, false, []⟩ [⟨[], ["index.html"]⟩, ⟨["a"], ["index.html"]⟩] []).overwritten
      = 1 := by
  decide

/-- Claim C4 (amended): without overwrite, in real runs, a second run over
unchanged trees mutates no file (destination unchanged, no writes, created
and overwritten both 0) and its skipped count equals the first run's
skipped count plus the first run's created and overwritten counts: the
skipped counter also counts root, empty-path and excluded skips, which
repeat in both runs. -/
theorem C4_amended (cfg : Config) (dirs : List SrcDir) (dest : Dest)
    (how : cfg.overwrite = false) (hdry : cfg.dryRun = false) :
    (run cfg dirs (run cfg dirs dest).dest).skipped
        = (run cfg dirs dest).skipped + (run cfg dirs dest).created
          + (run cfg dirs dest).overwritten ∧
    (run cfg dirs (run cfg dirs dest).dest).dest = (run cfg dirs dest).dest ∧
    (run cfg dirs (run cfg dirs dest).dest).writes = [] ∧
    (run cfg dirs (run cfg dirs dest).dest).created = 0 ∧
    (run cfg dirs (run cfg dirs dest).dest).overwritten = 0 := by
  have hall : ∀ dir ∈ dirs, qualB cfg dir = true →
      destExists (run cfg dirs dest).dest (relOf dir) = true :=
    fun dir hm hq => run_qual_exists cfg dirs hdry dest dir hm hq
  have hf := run_frozen cfg dirs how _ hall
  have hsum := run_counter_sum cfg dirs dest
  refine ⟨?_, hf.2.2.1, hf.2.2.2.1, hf.1, hf.2.1⟩
  rw [hf.2.2.2.2]
  omega

/-- Witness for C4 (amended) at a concrete input. -/
theorem C4_amended_witness :
    ((⟨ "/blog/", false, false, []⟩ : Config).overwrite = false ∧
      (⟨ "/blog/", false, false, []⟩ : Config).dryRun = false) ∧
    ((run ⟨ "/blog/", false, false, []⟩ [⟨[], ["index.html"]⟩, ⟨["a"], ["index.html"]⟩]
        (run ⟨ "/blog/", false, false, []⟩ [⟨[], ["index.html"]⟩, ⟨["a"], ["index.html"]⟩] []).dest).skipped
        = (run ⟨ "/blog/", false, false, []⟩ [⟨[], ["index.html"]⟩, ⟨["a"], ["index.html"]⟩] []).skipped
          + (run ⟨ "/blog/", false, false, []⟩ [⟨[], ["index.html"]⟩, ⟨["a"], ["index.html"]⟩] []).created
          + (run ⟨ "/blog/", false, false, []⟩ [⟨[], ["index.html"]⟩, ⟨["a"], ["index.html"]⟩] []).overwritten ∧
      (run ⟨ "/blog/", false, false, []⟩ [⟨[], ["index.html"]⟩, ⟨["a"], ["index.html"]⟩]
        (run ⟨ "/blog/", false, false, []⟩ [⟨[], ["index.html"]⟩, ⟨["a"], ["index.html"]⟩] []).dest).dest
        = (run ⟨ "/blog/", false, false, []⟩ [⟨[], ["index.html"]⟩, ⟨["a"], ["index.html"]⟩] []).dest ∧
      (run ⟨ "/blog/", false, false, []⟩ [⟨[], ["index.html"]⟩, ⟨["a"], ["index.html"]⟩]
        (run ⟨ "/blog/", false, false, []⟩ [⟨[], ["index.html"]⟩, ⟨["a"], ["index.html"]⟩] []).dest).writes
        = [] ∧
      (run ⟨ "/blog/", false, false, []⟩ [⟨[], ["index.html"]⟩, ⟨["a"], ["index.html"]⟩]
        (run ⟨ "/blog/", false, false, []⟩ [⟨[], ["index.html"]⟩, ⟨["a"], ["index.html"]⟩] []).dest).created
        = 0 ∧
      (run ⟨ "/blog/", false, false, []⟩ [⟨[], ["index.html"]⟩, ⟨["a"], ["index.html"]⟩]
        (run ⟨ "/blog/", false, false, []⟩ [⟨[], ["index.html"]⟩, ⟨["a"], ["index.html"]⟩] []).dest).overwritten
        = 0) :=
  ⟨⟨rfl, rfl⟩,
    C4_amended ⟨ "/blog/", false, false, []⟩ [⟨[], ["index.html"]⟩, ⟨["a"], ["index.html"]⟩] []
      rfl rfl⟩

theorem step_dry_real_outcome (cfg : Config) (dest : Dest) (dir : SrcDir)
    (how : cfg.overwrite = false) :
    (step (withDry cfg true) dest dir).1 = (step (withDry cfg false) dest dir).1 := by
  simp only [step, withDry, how]
  split_ifs <;> simp_all

theorem run_dry_real (cfg : Config) (dirs : List SrcDir) (how : cfg.overwrite = false) :
    ∀ dest : Dest, (relKeys dirs).Nodup →
      ((run (withDry cfg true) dirs dest).created = (run (withDry cfg false) dirs dest).created ∧
       (run (withDry cfg true) dirs dest).overwritten
          = (run (withDry cfg false) dirs dest).overwritten ∧
       (run (withDry cfg true) dirs dest).skipped = (run (withDry cfg false) dirs dest).skipped ∧
       (run (withDry cfg true) dirs dest).outcomes
          = (run (withDry cfg false) dirs dest).outcomes) := by
  induction dirs with
  | nil =>
    intro dest _
    simp [run]
  | cons dir rest ih =>
    intro dest hnd
    have hnd2 : relOf dir ∉ relKeys rest ∧ (relKeys rest).Nodup :=
      List.nodup_cons.mp (by simpa [relKeys] using hnd)
    have ho := step_dry_real_outcome cfg dest dir how
    have hdd := step_dry (withDry cfg true) dest dir rfl
    have hagree : ∀ d ∈ rest,
        destExists ((step (withDry cfg false) dest dir).2.1) (relOf d) = destExists dest (relOf d) := by
      intro d hd
      apply step_dest_other
      intro hc
      exact hnd2.1 (hc ▸ List.mem_map_of_mem relOf hd)
    have hAg := run_agree (withDry cfg false) rest ((step (withDry cfg false) dest dir).2.1) dest hagree
    have iht := ih dest hnd2.2
    simp only [run, hdd.1, ho]
    refine ⟨?_, ?_, ?_, ?_⟩
    · rw [iht.1, hAg.1]
    · rw [iht.2.1, hAg.2.1]
    · rw [iht.2.2.1, hAg.2.2.1]
    · rw [iht.2.2.2, hAg.2.2.2.1]

/-- Counterexample to claim C2 as stated: with overwrite set and a
qualifying directory whose output file does not exist, the dry run counts
it as created while the real run on the same state counts it as
overwritten, so the counts differ between dry and real runs. -/
theorem C2_counterexample :
    (run ⟨ "/blog/", true, true, []⟩ [⟨["a"], ["index.html"]⟩] []).created = 1 ∧
    (run ⟨ "/blog/", true, false, []⟩ [⟨["a"], ["index.html"]⟩] []).created = 0 ∧
    (run ⟨ "/blog/", true, true, []⟩ [⟨["a"], ["index.html"]⟩] []).overwritten = 0 ∧
    (run ⟨ "/blog/", true, false, []⟩ [⟨["a"], ["index.html"]⟩] []).overwritten = 1 := by
  decide

/-- Claim C2 (amended): when the overwrite flag is unset (and the walked
relative paths are distinct, as os.walk guarantees), a dry run produces
the same created, overwritten and skipped counts and the same
per-directory classification as a real run on the same state; a dry run
never changes the destination tree and writes nothing.  With overwrite
set, dry and real runs can classify a missing output file differently. -/
theorem C2_amended (cfg : Config) (dirs : List SrcDir) (dest : Dest)
    (how : cfg.overwrite = false) (hnd : (relKeys dirs).Nodup) :
    ((run (withDry cfg true) dirs dest).created = (run (withDry cfg false) dirs dest).created ∧
     (run (withDry cfg true) dirs dest).overwritten
        = (run (withDry cfg false) dirs dest).overwritten ∧
     (run (withDry cfg true) dirs dest).skipped = (run (withDry cfg false) dirs dest).skipped ∧
     (run (withDry cfg true) dirs dest).outcomes = (run (withDry cfg false) dirs dest).outcomes) ∧
    (run (withDry cfg true) dirs dest).dest = dest ∧
    (run (withDry cfg true) dirs dest).writes = [] :=
  ⟨run_dry_real cfg dirs how dest hnd,
    (run_dry (withDry cfg true) dirs dest rfl).1,
    (run_dry (withDry cfg true) dirs dest rfl).2⟩

/-- Witness for C2 (amended) at a concrete input. -/
theorem C2_amended_witness :
    ((⟨ "/blog/", false, false, []⟩ : Config).overwrite = false ∧
      (relKeys [⟨["a"], ["index.html"]⟩]).Nodup) ∧
    (((run (withDry ⟨ "/blog/", false, false, []⟩ true) [⟨["a"], ["index.html"]⟩] []).created
        = (run (withDry ⟨ "/blog/", false, false, []⟩ false) [⟨["a"], ["index.html"]⟩] []).created ∧
      (run (withDry ⟨ "/blog/", false, false, []⟩ true) [⟨["a"], ["index.html"]⟩] []).overwritten
        = (run (withDry ⟨ "/blog/", false, false, []⟩ false) [⟨["a"], ["index.html"]⟩] []).overwritten ∧
      (run (withDry ⟨ "/blog/", false, false, []⟩ true) [⟨["a"], ["index.html"]⟩] []).skipped
        = (run (withDry ⟨ "/blog/", false, false, []⟩ false) [⟨["a"], ["index.html"]⟩] []).skipped ∧
      (run (withDry ⟨ "/blog/", false, false, []⟩ true) [⟨["a"], ["index.html"]⟩] []).outcomes
        = (run (withDry ⟨ "/blog/", false, false, []⟩ false) [⟨["a"], ["index.html"]⟩] []).outcomes) ∧
    (run (withDry ⟨ "/blog/", false, false, []⟩ true) [⟨["a"], ["index.html"]⟩] []).dest = [] ∧
    (run (withDry ⟨ "/blog/", false, false, []⟩ true) [⟨["a"], ["index.html"]⟩] []).writes = []) :=
  ⟨⟨rfl, by decide⟩,
    C2_amended ⟨ "/blog/", false, false, []⟩ [⟨["a"], ["index.html"]⟩] [] rfl (by decide)⟩

theorem run_outcomes_length (cfg : Config) (dirs : List SrcDir) :
    ∀ dest : Dest, (run cfg dirs dest).outcomes.length = dirs.length := by
  induction dirs with
  | nil =>
    intro dest
    simp [run]
  | cons dir rest ih =>
    intro dest
    simp [run, ih]

/-- Counterexample to claim C5 as stated: a directory that satisfies all
four stated conditions still produces no redirect stub when its output
file already exists and overwrite is not set. -/
theorem C5_counterexample :
    ("index.html" ∈ (⟨["a"], ["index.html"]⟩ : SrcDir).files ∧
      is_index_at_root (⟨["a"], ["index.html"]⟩ : SrcDir).comps = false ∧
      relOf ⟨["a"], ["index.html"]⟩ ≠ "" ∧
      relOf ⟨["a"], ["index.html"]⟩ ∉ (⟨ "/blog/", false, false, []⟩ : Config).exclude) ∧
    (run ⟨ "/blog/", false, false, []⟩ [⟨["a"], ["index.html"]⟩] [("a", "x")]).writes = [] := by
  decide

/-- Claim C5 (amended): a redirect stub is written for a directory iff it
directly contains index.html, it is not the blog root, its normalized
relative path is non-empty and not excluded, the run is not a dry run,
and the output file is absent or overwrite is set; every walked
directory, qualifying or not, is still classified, so descendants of
non-qualifying directories are still visited. -/
theorem C5_amended (cfg : Config) (dest : Dest) (dirs : List SrcDir) (dir : SrcDir) :
    (((step cfg dest dir).2.2).isSome = true ↔
      ("index.html" ∈ dir.files ∧ is_index_at_root dir.comps = false ∧
        relOf dir ≠ "" ∧ relOf dir ∉ cfg.exclude ∧ cfg.dryRun = false ∧
        (destExists dest (relOf dir) = false ∨ cfg.overwrite = true))) ∧
    (run cfg dirs dest).outcomes.length = dirs.length := by
  refine ⟨?_, run_outcomes_length cfg dirs dest⟩
  simp only [step]
  split_ifs with h1 h2 h3 h4 h5 <;> simp_all [relOf]

theorem isPrefixOf_append (p l m : List Char) (h : p.isPrefixOf l = true) :
    p.isPrefixOf (l ++ m) = true := by
  induction p generalizing l with
  | nil => simp [List.isPrefixOf]
  | cons a p ih =>
    cases l with
    | nil => simp [List.isPrefixOf] at h
    | cons b l =>
      simp only [List.isPrefixOf, List.cons_append, Bool.and_eq_true] at h ⊢
      exact ⟨h.1, ih l h.2⟩

theorem pyStartswith_normalizeBase (b : String) : pyStartswith (normalizeBase b) "/" = true := by
  have hslash : ("/" : String).data = ['/'] := rfl
  simp only [normalizeBase]
  by_cases hs : pyStartswith b "/" = true
  · rw [if_pos hs]
    by_cases he : pyEndswith b "/" = true
    · rw [if_pos he]
      exact hs
    · rw [if_neg he]
      simp only [pyStartswith, String.data_append, hslash] at hs ⊢
      exact isPrefixOf_append _ _ _ hs
  · rw [if_neg hs]
    have hb1 : pyStartswith ("/" ++ b) "/" = true := by
      simp only [pyStartswith, String.data_append, hslash]
      simp [List.isPrefixOf]
    by_cases he : pyEndswith ("/" ++ b) "/" = true
    · rw [if_pos he]
      exact hb1
    · rw [if_neg he]
      simp only [pyStartswith, String.data_append, hslash] at hb1 ⊢
      exact isPrefixOf_append _ _ _ hb1

theorem pyEndswith_append_slash (x : String) : pyEndswith (x ++ "/") "/" = true := by
  have hslash : ("/" : String).data = ['/'] := rfl
  simp only [pyEndswith, String.data_append, hslash, List.isSuffixOf, List.reverse_append]
  simp [List.isPrefixOf]

theorem pyEndswith_normalizeBase (b : String) : pyEndswith (normalizeBase b) "/" = true := by
  simp only [normalizeBase]
  by_cases hs : pyStartswith b "/" = true
  · rw [if_pos hs]
    by_cases he : pyEndswith b "/" = true
    · rw [if_pos he]
      exact he
    · rw [if_neg he]
      exact pyEndswith_append_slash b
  · rw [if_neg hs]
    by_cases he : pyEndswith ("/" ++ b) "/" = true
    · rw [if_pos he]
      exact he
    · rw [if_neg he]
      exact pyEndswith_append_slash ("/" ++ b)

/-- Claim C6: the normalized base prefix always starts and ends with "/"
(input "blog" normalizes to "/blog/"), and the content written for a
qualifying directory is the template instantiated at exactly the
normalized base prefix concatenated with the normalized relative path
concatenated with "/". -/
theorem C6_base_and_target (b : String) (cfg : Config) (dest : Dest) (dir : SrcDir)
    (hidx : "index.html" ∈ dir.files) (hrel : relOf dir ≠ "")
    (hexc : relOf dir ∉ cfg.exclude) (hdry : cfg.dryRun = false)
    (hok : destExists dest (relOf dir) = false ∨ cfg.overwrite = true) :
    pyStartswith (normalizeBase b) "/" = true ∧
    pyEndswith (normalizeBase b) "/" = true ∧
    normalizeBase "blog" = "/blog/" ∧
    lookupDest (step cfg dest dir).2.1 (relOf dir)
      = some (REDIRECT_TEMPLATE (normalizeBase cfg.base ++ relOf dir ++ "/")) := by
  refine ⟨pyStartswith_normalizeBase b, pyEndswith_normalizeBase b, by decide, ?_⟩
  rw [step_qual cfg dest dir hidx hrel hexc]
  rcases hok with hok | hok
  · rw [hok]
    simp only [hdry, Bool.false_and]
    split_ifs <;> simp_all [lookupDest_writeDest]
  · rw [hok]
    simp only [hdry]
    split_ifs <;> simp_all [lookupDest_writeDest]

/-- Witness for C6 at a concrete input. -/
theorem C6_base_and_target_witness :
    ("index.html" ∈ (⟨["a"], ["index.html"]⟩ : SrcDir).files ∧
      relOf ⟨["a"], ["index.html"]⟩ ≠ "" ∧
      relOf ⟨["a"], ["index.html"]⟩ ∉ (⟨ "blog", false, false, []⟩ : Config).exclude ∧
      (⟨ "blog", false, false, []⟩ : Config).dryRun = false ∧
      (destExists [] (relOf ⟨["a"], ["index.html"]⟩) = false ∨
        (⟨ "blog", false, false, []⟩ : Config).overwrite = true)) ∧
    (pyStartswith (normalizeBase "blog") "/" = true ∧
      pyEndswith (normalizeBase "blog") "/" = true ∧
      normalizeBase "blog" = "/blog/" ∧
      lookupDest (step ⟨ "blog", false, false, []⟩ [] ⟨["a"], ["index.html"]⟩).2.1
          (relOf ⟨["a"], ["index.html"]⟩)
        = some (REDIRECT_TEMPLATE
            (normalizeBase (⟨ "blog", false, false, []⟩ : Config).base
              ++ relOf ⟨["a"], ["index.html"]⟩ ++ "/"))) :=
  ⟨⟨by decide, by decide, by decide, rfl, Or.inl (by decide)⟩,
    C6_base_and_target "blog" ⟨ "blog", false, false, []⟩ [] ⟨["a"], ["index.html"]⟩
      (by decide) (by decide) (by decide) rfl (Or.inl (by decide))⟩

/-- Claim C8: the redirect page written for a target contains the meta
refresh tag with content "0; url=" followed by the target, the canonical
link tag whose href is the target, and the visible fallback hyperlink
whose href and text are the target, each with the target substituted
verbatim. -/
theorem C8_template_contains (t : String) :
    (∃ u v : List Char, (REDIRECT_TEMPLATE t).data = u ++ (metaTag t).data ++ v) ∧
    (∃ u v : List Char, (REDIRECT_TEMPLATE t).data = u ++ (canonTag t).data ++ v) ∧
    (∃ u v : List Char, (REDIRECT_TEMPLATE t).data = u ++ (anchorTag t).data ++ v) := by
  have hA : tplA = tplA0 ++ metaOpen := by decide
  have hB : tplB = closeTag ++ (nlIndent ++ canonOpen) := by decide
  have hC : tplC = closeTag ++ (tplC0 ++ aOpen) := by decide
  have hD : tplD = closeTag := by decide
  have hE : tplE = aClose ++ tplE0 := by decide
  refine ⟨⟨tplA0.data, (nlIndent ++ canonOpen ++ t ++ tplC ++ t ++ tplD ++ t ++ tplE).data, ?_⟩,
    ⟨(tplA ++ t ++ closeTag ++ nlIndent).data, (tplC0 ++ aOpen ++ t ++ tplD ++ t ++ tplE).data, ?_⟩,
    ⟨(tplA ++ t ++ tplB ++ t ++ closeTag ++ tplC0).data, tplE0.data, ?_⟩⟩
  · rw [show REDIRECT_TEMPLATE t
        = (tplA0 ++ metaOpen) ++ t ++ (closeTag ++ (nlIndent ++ canonOpen)) ++ t ++ tplC ++ t ++ tplD ++ t ++ tplE
      from by rw [REDIRECT_TEMPLATE, ← hA, ← hB]]
    simp [metaTag, String.data_append, List.append_assoc]
  · rw [show REDIRECT_TEMPLATE t
        = tplA ++ t ++ (closeTag ++ (nlIndent ++ canonOpen)) ++ t ++ (closeTag ++ (tplC0 ++ aOpen)) ++ t ++ tplD ++ t ++ tplE
      from by rw [REDIRECT_TEMPLATE, ← hB, ← hC]]
    simp [canonTag, String.data_append, List.append_assoc]
  · rw [show REDIRECT_TEMPLATE t
        = tplA ++ t ++ tplB ++ t ++ (closeTag ++ (tplC0 ++ aOpen)) ++ t ++ closeTag ++ t ++ (aClose ++ tplE0)
      from by rw [REDIRECT_TEMPLATE, ← hC, ← hD, ← hE]]
    simp [anchorTag, String.data_append, List.append_assoc]

theorem step_write_inv (cfg : Config) (dest : Dest) (dir : SrcDir) (p : List String)
    (h : (step cfg dest dir).2.2 = some p) :
    p = dir.comps ++ [ "index.html" ] ∧ "index.html" ∈ dir.files ∧ dir.comps ≠ [] ∧
      relOf dir ∉ cfg.exclude := by
  simp only [step] at h
  split_ifs at h with h1 h2 h3 h4 h5 h6 <;>
    simp_all [relOf, is_index_at_root, List.isEmpty_iff]

theorem run_writes_shape (cfg : Config) (dirs : List SrcDir) :
    ∀ dest : Dest, ∀ p ∈ (run cfg dirs dest).writes,
      ∃ dir, dir ∈ dirs ∧ "index.html" ∈ dir.files ∧ dir.comps ≠ [] ∧
        relOf dir ∉ cfg.exclude ∧ p = dir.comps ++ [ "index.html" ] := by
  induction dirs with
  | nil =>
    intro dest p hp
    simp [run] at hp
  | cons dir rest ih =>
    intro dest p hp
    simp only [run] at hp
    rcases hw : (step cfg dest dir).2.2 with _ | q
    · rw [hw] at hp
      obtain ⟨d, hd, hrest⟩ := ih _ p hp
      exact ⟨d, by simp [hd], hrest⟩
    · rw [hw] at hp
      rcases List.mem_cons.mp hp with he | hm
      · have hinv := step_write_inv cfg dest dir q hw
        exact ⟨dir, by simp, hinv.2.1, hinv.2.2.1, hinv.2.2.2, he ▸ hinv.1⟩
      · obtain ⟨d, hd, hrest⟩ := ih _ p hm
        exact ⟨d, by simp [hd], hrest⟩

/-- Claim C10: every file the run writes is named exactly index.html and
lies strictly below the site root at the relative path of a qualifying
source directory (so it is never the site root's own index.html), and the
written paths have well-formed directory components whenever the walk
does. -/
theorem C10_frame (cfg : Config) (dirs : List SrcDir) (dest : Dest) (hwf : walkWF dirs) :
    ∀ p ∈ (run cfg dirs dest).writes,
      (∃ dir, dir ∈ dirs ∧ "index.html" ∈ dir.files ∧ dir.comps ≠ [] ∧
        relOf dir ∉ cfg.exclude ∧ p = dir.comps ++ [ "index.html" ]) ∧
      p.getLast? = some "index.html" ∧
      p ≠ [ "index.html" ] ∧
      ∀ c ∈ p.dropLast, c ≠ "" ∧ c ≠ "." ∧ c ≠ ".." := by
  intro p hp
  obtain ⟨dir, hmem, hidx, hne, hexc, hshape⟩ := run_writes_shape cfg dirs dest p hp
  refine ⟨⟨dir, hmem, hidx, hne, hexc, hshape⟩, ?_, ?_, ?_⟩
  · rw [hshape]
    simp
  · rw [hshape]
    intro hcontr
    have hlen : dir.comps.length + 1 = 1 := by
      simpa using congrArg List.length hcontr
    exact hne (List.length_eq_zero.mp (by omega))
  · rw [hshape, List.dropLast_concat]
    exact fun c hc => hwf dir hmem c hc

/-- Witness for C10 at a concrete input. -/
theorem C10_frame_witness :
    walkWF [⟨["a"], ["index.html"]⟩] ∧
    (∀ p ∈ (run ⟨ "/blog/", false, false, []⟩ [⟨["a"], ["index.html"]⟩] []).writes,
      (∃ dir, dir ∈ [(⟨["a"], ["index.html"]⟩ : SrcDir)] ∧ "index.html" ∈ dir.files ∧
        dir.comps ≠ [] ∧ relOf dir ∉ (⟨ "/blog/", false, false, []⟩ : Config).exclude ∧
        p = dir.comps ++ [ "index.html" ]) ∧
      p.getLast? = some "index.html" ∧
      p ≠ [ "index.html" ] ∧
      ∀ c ∈ p.dropLast, c ≠ "" ∧ c ≠ "." ∧ c ≠ "..") :=
  ⟨by unfold walkWF; decide, C10_frame ⟨ "/blog/", false, false, []⟩ [⟨["a"], ["index.html"]⟩] []
    (by unfold walkWF; decide)⟩

/-- Claim C9: every visited directory that directly contains index.html
increments exactly one of the three counters, so their sum equals the
number of walked directories containing index.html; directories without
index.html touch no counter. -/
theorem C9_counter_partition (cfg : Config) (dirs : List SrcDir) (dest : Dest) :
    (run cfg dirs dest).created + (run cfg dirs dest).overwritten + (run cfg dirs dest).skipped
      = (dirs.filter (fun d => hasIndex d)).length :=
  run_counter_sum cfg dirs dest

end GenRedirects
